import Mathlib

/-!
Verification of the core of jchv/again (main.go): the cyclic port
allocator, the per-port TCP forwarder, the change-event debouncer and the
process supervisor.  Go code is shallowly embedded: machine integers are
Nat with explicit reduction mod 2^16 where the Go code works in uint16,
strings are lists of characters, fallible code returns Except/Option, and
the concurrent loops (debouncer, runner, forwarder accept loop) are
embedded as pure functions over finite event traces.
-/

/-! ## Port allocator (main.go, nextPort and the init of portCycle)

Go source:
  portCycle++
  if portCycle == uint16(portMax) { portCycle = uint16(portMin) }
  return portCycle
with portCycle a uint16 initialised in init() as uint16(portMin) - 1.
-/

/-- Conversion of a natural number to Go uint16: reduction mod 2^16. -/
def u16 (n : Nat) : Nat := n % 65536

/-- One call of nextPort(): the uint16 cursor is incremented (wrapping mod
2^16), replaced by uint16(portMin) when it equals uint16(portMax), and the
new cursor is both stored and returned (the return value and the new state
of portCycle coincide in the source). -/
def nextPort (pmin pmax cur : Nat) : Nat :=
  let c := u16 (cur + 1)
  if c = u16 pmax then u16 pmin else c

/-- Initial value of portCycle set in init(): uint16(portMin) - 1 in
uint16 arithmetic. -/
def initCursor (pmin : Nat) : Nat := (u16 pmin + 65535) % 65536

/-- The results of n successive nextPort() calls starting from cursor
state cur (each call returns the new cursor, which is also the state the
following call starts from). -/
def portSeq (pmin pmax : Nat) : Nat → Nat → List Nat
  | _, 0 => []
  | cur, n + 1 =>
    let p := nextPort pmin pmax cur
    p :: portSeq pmin pmax p n

/-- Cursor states reachable by the program: the initial state written by
init(), closed under nextPort (whose return value is the new state). -/
inductive Reachable (pmin pmax : Nat) : Nat → Prop
  | init : Reachable pmin pmax (initCursor pmin)
  | step {c : Nat} : Reachable pmin pmax c →
      Reachable pmin pmax (nextPort pmin pmax c)

/-! ### Characterisation lemmas for the allocator -/

theorem u16_eq_of_lt {n : Nat} (h : n < 65536) : u16 n = n :=
  Nat.mod_eq_of_lt h

/-- The first call after init() returns pmin. -/
theorem nextPort_initCursor {pmin pmax : Nat} (h1 : pmin < pmax)
    (h2 : pmax < 65536) : nextPort pmin pmax (initCursor pmin) = pmin := by
  have hpmin : pmin < 65536 := lt_trans h1 h2
  have hcur : initCursor pmin = (pmin + 65535) % 65536 := by
    unfold initCursor u16
    rw [Nat.mod_eq_of_lt hpmin]
  have hinc : u16 (initCursor pmin + 1) = pmin := by
    unfold u16
    rw [hcur, Nat.mod_add_mod]
    have : pmin + 65535 + 1 = pmin + 65536 := by omega
    rw [this, Nat.add_mod_right, Nat.mod_eq_of_lt hpmin]
  unfold nextPort
  simp only [hinc]
  rw [u16_eq_of_lt h2, u16_eq_of_lt hpmin]
  have hne : pmin ≠ pmax := Nat.ne_of_lt h1
  simp [hne]

/-- A call from an in-range cursor advances by one, wrapping to pmin when
the incremented cursor reaches pmax. -/
theorem nextPort_in_range {pmin pmax c : Nat} (hc1 : pmin ≤ c)
    (hc2 : c < pmax) (h2 : pmax < 65536) :
    nextPort pmin pmax c = if c + 1 = pmax then pmin else c + 1 := by
  have hpmin : pmin < 65536 := lt_of_le_of_lt hc1 (lt_trans hc2 h2)
  have hc1' : c + 1 < 65536 := by omega
  unfold nextPort
  rw [u16_eq_of_lt hc1', u16_eq_of_lt h2, u16_eq_of_lt hpmin]

/-- Closed form for the results of n successive calls starting from an
in-range cursor: the i-th result is pmin + ((c - pmin + 1 + i) mod K)
where K = pmax - pmin. -/
theorem portSeq_char {pmin pmax : Nat} (h1 : pmin < pmax)
    (h2 : pmax < 65536) :
    ∀ (n c : Nat), pmin ≤ c → c < pmax →
      portSeq pmin pmax c n =
        (List.range n).map
          (fun i => pmin + (c - pmin + 1 + i) % (pmax - pmin)) := by
  intro n
  induction n with
  | zero => intro c _ _; simp [portSeq]
  | succ m ih =>
    intro c hc1 hc2
    have hstep := nextPort_in_range hc1 hc2 h2
    set K := pmax - pmin with hK
    have hr : nextPort pmin pmax c = pmin + (c - pmin + 1) % K := by
      rw [hstep]
      by_cases hcase : c + 1 = pmax
      · rw [if_pos hcase]
        have he : c - pmin + 1 = K := by omega
        rw [he, Nat.mod_self]
        omega
      · rw [if_neg hcase]
        have hlt : c - pmin + 1 < K := by omega
        rw [Nat.mod_eq_of_lt hlt]
        omega
    have hr1 : pmin ≤ nextPort pmin pmax c := by
      rw [hr]; omega
    have hr2 : nextPort pmin pmax c < pmax := by
      rw [hr]
      have : (c - pmin + 1) % K < K := Nat.mod_lt _ (by omega)
      omega
    have hrec := ih (nextPort pmin pmax c) hr1 hr2
    show nextPort pmin pmax c :: portSeq pmin pmax (nextPort pmin pmax c) m
        = _
    rw [hrec, List.range_succ_eq_map, List.map_cons, List.map_map]
    congr 1
    rw [hr]
    simp
    intro a _
    have harg : (c - pmin + 1) % K + 1 + a
        ≡ c - pmin + 1 + (a + 1) [MOD K] := by
      calc (c - pmin + 1) % K + 1 + a
          = (c - pmin + 1) % K + (1 + a) := by ring
        _ ≡ (c - pmin + 1) + (1 + a) [MOD K] :=
            Nat.ModEq.add_right _ (Nat.mod_modEq _ _)
        _ = c - pmin + 1 + (a + 1) := by ring
    exact harg

/-- Closed form for the results of n successive calls starting from the
initial cursor written by init(): the i-th result is
pmin + ((K + i) mod K), i.e. pmin, pmin+1, ... -/
theorem portSeq_init {pmin pmax : Nat} (h1 : pmin < pmax)
    (h2 : pmax < 65536) (n : Nat) :
    portSeq pmin pmax (initCursor pmin) n =
      (List.range n).map
        (fun i => pmin + (pmax - pmin + i) % (pmax - pmin)) := by
  cases n with
  | zero => simp [portSeq]
  | succ m =>
    set K := pmax - pmin with hK
    show nextPort pmin pmax (initCursor pmin)
        :: portSeq pmin pmax (nextPort pmin pmax (initCursor pmin)) m = _
    rw [nextPort_initCursor h1 h2]
    rw [portSeq_char h1 h2 m pmin (le_refl _) h1]
    rw [List.range_succ_eq_map, List.map_cons, List.map_map]
    congr 1
    · simp
    · apply List.map_congr_left
      intro i _
      simp only [Function.comp_apply, Nat.succ_eq_add_one]
      have h3 : pmin - pmin + 1 + i = i + 1 := by omega
      rw [h3, Nat.add_mod_left]

/-- Every reachable cursor state is either the initial state or lies in
the configured range [pmin, pmax). -/
theorem reachable_cases {pmin pmax c : Nat} (h1 : pmin < pmax)
    (h2 : pmax < 65536) (hr : Reachable pmin pmax c) :
    c = initCursor pmin ∨ (pmin ≤ c ∧ c < pmax) := by
  induction hr with
  | init => exact Or.inl rfl
  | @step d _ ih =>
    right
    rcases ih with h | h
    · rw [h, nextPort_initCursor h1 h2]
      exact ⟨le_refl _, h1⟩
    · rw [nextPort_in_range h.1 h.2 h2]
      by_cases hcase : d + 1 = pmax <;> simp [hcase] <;> omega

/-! ## Claim C1 and C8 theorems -/

/-- C1: the port allocator cycles with wraparound.  For any configured
range [pmin, pmax) of size K = pmax - pmin with K >= 1 (and pmax a valid
uint16 port bound), starting from the initial cursor written by init(),
K+1 successive nextPort() calls return exactly pmin, pmin+1, ...,
pmax-1, pmin. -/
theorem allocator_cycle_sequence (pmin pmax : Nat) (h1 : pmin < pmax)
    (h2 : pmax < 65536) :
    portSeq pmin pmax (initCursor pmin) (pmax - pmin + 1) =
      (List.range (pmax - pmin)).map (fun i => pmin + i) ++ [pmin] := by
  rw [portSeq_init h1 h2]
  set K := pmax - pmin with hK
  rw [List.range_succ, List.map_append, List.map_singleton]
  congr 1
  · apply List.map_congr_left
    intro i hi
    rw [List.mem_range] at hi
    rw [Nat.add_mod_left, Nat.mod_eq_of_lt hi]
  · rw [Nat.add_mod_left, Nat.mod_self, Nat.add_zero]

/-- Witness for C1 at the spec scenario port-min=50000, port-max=50003:
four successive calls return 50000, 50001, 50002, 50000. -/
theorem allocator_cycle_sequence_witness :
    (50000 : Nat) < 50003 ∧ (50003 : Nat) < 65536 ∧
      portSeq 50000 50003 (initCursor 50000) 4 =
        [50000, 50001, 50002, 50000] := by
  refine ⟨by norm_num, by norm_num, ?_⟩
  have h := allocator_cycle_sequence 50000 50003 (by norm_num) (by norm_num)
  rw [h]
  decide

/-- C8 counterexample: with the default configuration
port-min=50000, port-max=60000, the initial cursor state written by
init() (namely 49999) is reachable but does not lie in [50000, 60000),
refuting the claim that the cursor lies in [min, max) in every reachable
state including the initial one. -/
theorem cursor_initial_state_counterexample :
    Reachable 50000 60000 (initCursor 50000) ∧
      ¬ (50000 ≤ initCursor 50000 ∧ initCursor 50000 < 60000) :=
  ⟨Reachable.init, by decide⟩

/-- C8 (amended): every reachable cursor state is either the initial
state uint16(pmin)-1 (which lies one below the range) or lies in
[pmin, pmax); every nextPort() call from a reachable state produces a
cursor in [pmin, pmax); and from an in-range cursor, nextPort advances
the cursor by one, wrapping to pmin when it reaches pmax, returning the
new value (the returned value is by definition the new cursor state). -/
theorem cursor_range_invariant (pmin pmax c : Nat) (h1 : pmin < pmax)
    (h2 : pmax < 65536) (hr : Reachable pmin pmax c) :
    (c = initCursor pmin ∨ (pmin ≤ c ∧ c < pmax)) ∧
    (pmin ≤ nextPort pmin pmax c ∧ nextPort pmin pmax c < pmax) ∧
    (pmin ≤ c → c < pmax →
      nextPort pmin pmax c = if c + 1 = pmax then pmin else c + 1) := by
  refine ⟨reachable_cases h1 h2 hr, ?_,
    fun hc1 hc2 => nextPort_in_range hc1 hc2 h2⟩
  rcases reachable_cases h1 h2 hr with h | h
  · rw [h, nextPort_initCursor h1 h2]
    exact ⟨le_refl _, h1⟩
  · rw [nextPort_in_range h.1 h.2 h2]
    by_cases hcase : c + 1 = pmax
    · rw [if_pos hcase]; omega
    · rw [if_neg hcase]; omega

/-- Witness for C8 (amended) at range [50000, 50003) and the initial
reachable state. -/
theorem cursor_range_invariant_witness :
    (50000 : Nat) < 50003 ∧ (50003 : Nat) < 65536 ∧
    ((initCursor 50000 = initCursor 50000 ∨
        (50000 ≤ initCursor 50000 ∧ initCursor 50000 < 50003)) ∧
      (50000 ≤ nextPort 50000 50003 (initCursor 50000) ∧
        nextPort 50000 50003 (initCursor 50000) < 50003) ∧
      (50000 ≤ initCursor 50000 → initCursor 50000 < 50003 →
        nextPort 50000 50003 (initCursor 50000) =
          if initCursor 50000 + 1 = 50003 then 50000
          else initCursor 50000 + 1)) :=
  ⟨by decide, by decide,
    cursor_range_invariant 50000 50003 (initCursor 50000) (by decide)
      (by decide) Reachable.init⟩

/-! ## Port forwarder data model and the supervisor (runner) loop

Go source (main.go): type portForwarder struct { env string; src uint16;
dest uint32 }.  Cycle() obtains a port from nextPort(), stores it in dest
and returns it.  The runner loop builds cmd.Env as os.Environ() plus one
entry Sprintf of env=localhost:port per forwarder in portMap, spawns the
child in its own process group, blocks on the restart channel, then kills
the child process group with SIGKILL and reaps it with Process.Wait,
before looping.  Strings are embedded as lists of characters.
-/

structure portForwarder where
  env : List Char
  src : Nat
  dest : Nat
  deriving DecidableEq, Repr

/-- The literal text between the name and the port in
Sprintf of env=localhost:port. -/
def eqLocalhostChars : List Char :=
  ['=', 'l', 'o', 'c', 'a', 'l', 'h', 'o', 's', 't', ':']

/-- The environment entry appended for one forwarder:
env ++ "=localhost:" ++ decimal digits of the fresh port. -/
def envEntry (name : List Char) (port : Nat) : List Char :=
  name ++ eqLocalhostChars ++ Nat.toDigits 10 port

/-- The runner's per-spawn loop over portMap: for each forwarder it calls
Cycle() (which calls nextPort and stores the result in dest) and appends
the corresponding environment entry.  Returns the cursor after the loop,
the forwarders with updated dest fields, and the appended entries, in
iteration order. -/
def cycleAll (pmin pmax : Nat) :
    Nat → List portForwarder → Nat × List portForwarder × List (List Char)
  | cur, [] => (cur, [], [])
  | cur, f :: fs =>
    let port := nextPort pmin pmax cur
    let rest := cycleAll pmin pmax port fs
    (rest.1, { f with dest := port } :: rest.2.1,
      envEntry f.env port :: rest.2.2)

/-- The cursor state after n nextPort() calls. -/
def cursAfter (pmin pmax : Nat) : Nat → Nat → Nat
  | cur, 0 => cur
  | cur, n + 1 => cursAfter pmin pmax (nextPort pmin pmax cur) n

/-- Shared state of the runner: the allocator cursor and the forwarders
of portMap (in iteration order; Go map order is unspecified, so the order
is a parameter of the embedding). -/
structure RunnerState where
  cursor : Nat
  fwds : List portForwarder
  deriving DecidableEq, Repr

/-- Observable actions of one runner loop iteration. -/
inductive RAction where
  | spawn (env : List (List Char))
  | killGroup
  | reap
  deriving DecidableEq, Repr

/-- The child environment built for a spawn from state st: the inherited
process environment (base, os.Environ()) followed by one entry per
forwarder with its freshly cycled port. -/
def spawnEnv (pmin pmax : Nat) (base : List (List Char))
    (st : RunnerState) : List (List Char) :=
  base ++ (cycleAll pmin pmax st.cursor st.fwds).2.2

/-- The shared state after the spawn's environment loop ran: advanced
cursor and updated dest fields. -/
def afterSpawn (pmin pmax : Nat) (st : RunnerState) : RunnerState :=
  ⟨(cycleAll pmin pmax st.cursor st.fwds).1,
    (cycleAll pmin pmax st.cursor st.fwds).2.1⟩

/-- The action trace of the runner loop that processes n restart pulses:
spawn, then for each pulse in order kill the process group, reap the
child, and spawn again with a freshly built environment; after the last
spawn the loop blocks on the next pulse. -/
def runnerTrace (pmin pmax : Nat) (base : List (List Char)) :
    RunnerState → Nat → List RAction
  | st, 0 => [RAction.spawn (spawnEnv pmin pmax base st)]
  | st, n + 1 =>
    RAction.spawn (spawnEnv pmin pmax base st) :: RAction.killGroup ::
      RAction.reap ::
      runnerTrace pmin pmax base (afterSpawn pmin pmax st) n

/-- n-fold iteration of the per-spawn state update. -/
def stIter (pmin pmax : Nat) : RunnerState → Nat → RunnerState
  | st, 0 => st
  | st, n + 1 => stIter pmin pmax (afterSpawn pmin pmax st) n

theorem portSeq_length (pmin pmax : Nat) :
    ∀ (n cur : Nat), (portSeq pmin pmax cur n).length = n := by
  intro n
  induction n with
  | zero => intro cur; rfl
  | succ m ih => intro cur; simp [portSeq, ih]

/-- The runner's environment loop written out: the forwarders are zipped
with the successive nextPort results; each forwarder stores its fresh
port in dest, and contributes the matching environment entry. -/
theorem cycleAll_spec (pmin pmax : Nat) :
    ∀ (fwds : List portForwarder) (cur : Nat),
      cycleAll pmin pmax cur fwds =
        (cursAfter pmin pmax cur fwds.length,
         List.zipWith (fun f p => { f with dest := p }) fwds
           (portSeq pmin pmax cur fwds.length),
         List.zipWith (fun f p => envEntry f.env p) fwds
           (portSeq pmin pmax cur fwds.length)) := by
  intro fwds
  induction fwds with
  | nil => intro cur; rfl
  | cons f fs ih =>
    intro cur
    simp [cycleAll, cursAfter, portSeq, ih]

/-! ## Claim C3, C4 and C9 theorems -/

/-- C3: the runner loop processing n restart pulses performs, for every
pulse, exactly one group-wide kill, then exactly one reap, then exactly
one spawn with a freshly built environment from the rotated state, before
the next pulse is consulted: the full trace is the first spawn followed
by one [killGroup, reap, spawn] block per pulse, in pulse order. -/
theorem runner_restart_cycle (pmin pmax : Nat) (base : List (List Char))
    (st : RunnerState) (n : Nat) :
    runnerTrace pmin pmax base st n =
      RAction.spawn (spawnEnv pmin pmax base st) ::
        ((List.range n).map (fun i =>
          [RAction.killGroup, RAction.reap,
           RAction.spawn (spawnEnv pmin pmax base
             (stIter pmin pmax st (i + 1)))])).flatten := by
  induction n generalizing st with
  | zero => simp [runnerTrace]
  | succ m ih =>
    rw [runnerTrace, ih (afterSpawn pmin pmax st)]
    rw [List.range_succ_eq_map, List.map_cons, List.map_map,
      List.flatten_cons]
    have hiter : ∀ k, stIter pmin pmax st (k + 1)
        = stIter pmin pmax (afterSpawn pmin pmax st) k := fun _ => rfl
    simp only [Function.comp_apply, Nat.succ_eq_add_one, Nat.zero_add,
      hiter, stIter]
    rfl

/-- C4: on every spawn, the child environment is the inherited
environment plus exactly one entry per declared forwarder, the i-th entry
being name_i ++ "=localhost:" ++ the decimal digits of the i-th freshly
cycled port, and that same port is stored as the forwarder's new dest. -/
theorem runner_spawn_environment (pmin pmax : Nat)
    (base : List (List Char)) (cur : Nat) (fwds : List portForwarder) :
    spawnEnv pmin pmax base ⟨cur, fwds⟩ =
      base ++ List.zipWith (fun f p => envEntry f.env p) fwds
        (portSeq pmin pmax cur fwds.length) ∧
    (afterSpawn pmin pmax ⟨cur, fwds⟩).fwds =
      List.zipWith (fun f p => { f with dest := p }) fwds
        (portSeq pmin pmax cur fwds.length) ∧
    (portSeq pmin pmax cur fwds.length).length = fwds.length := by
  refine ⟨?_, ?_, portSeq_length pmin pmax fwds.length cur⟩
  · unfold spawnEnv
    rw [cycleAll_spec]
  · unfold afterSpawn
    rw [cycleAll_spec]

/-- Mapping dest over forwarders zipped with their fresh ports recovers
the ports. -/
theorem map_dest_zipWith :
    ∀ (fwds : List portForwarder) (ports : List Nat),
      fwds.length = ports.length →
      (List.zipWith (fun f p => { f with dest := p }) fwds ports).map
        (fun f => f.dest) = ports := by
  intro fwds
  induction fwds with
  | nil =>
    intro ports h
    cases ports with
    | nil => rfl
    | cons p ps => simp at h
  | cons f fs ih =>
    intro ports h
    cases ports with
    | nil => simp at h
    | cons p ps =>
      simp only [List.zipWith_cons_cons, List.map_cons]
      rw [ih ps (by simpa using h)]

/-- Successive results of the allocator are pairwise distinct as long as
no more are drawn than the size of the range: the i-th result is
pmin + ((d + i) mod K), and distinct indices below K give distinct
residues. -/
theorem range_map_mod_pairwise (pmin K d n : Nat) (hn : n ≤ K) :
    ((List.range n).map (fun i => pmin + (d + i) % K)).Pairwise
      (· ≠ ·) := by
  rw [List.pairwise_map, List.pairwise_iff_getElem]
  intro i j hi hj hij
  simp only [List.length_range] at hi hj
  simp only [List.getElem_range]
  intro heq
  have ha : (d + i) % K = (d + j) % K := by omega
  have hb : i ≡ j [MOD K] := Nat.ModEq.add_left_cancel' d ha
  have hc : i % K = j % K := hb
  rw [Nat.mod_eq_of_lt (by omega), Nat.mod_eq_of_lt (by omega)] at hc
  omega

/-- From any reachable cursor state, n successive nextPort() results are
pairwise distinct when n is at most the range size. -/
theorem portSeq_pairwise {pmin pmax cur n : Nat} (h1 : pmin < pmax)
    (h2 : pmax < 65536) (hr : Reachable pmin pmax cur)
    (hn : n ≤ pmax - pmin) :
    (portSeq pmin pmax cur n).Pairwise (· ≠ ·) := by
  rcases reachable_cases h1 h2 hr with h | h
  · rw [h, portSeq_init h1 h2]
    exact range_map_mod_pairwise pmin _ _ n hn
  · rw [portSeq_char h1 h2 n cur h.1 h.2]
    exact range_map_mod_pairwise pmin _ _ n hn

/-- C9: within a single spawn, the destination ports assigned to the
declared forwarders are pairwise distinct, provided there are at most
pmax - pmin forwarders and the shared cursor is in a reachable state. -/
theorem spawn_ports_pairwise_distinct (pmin pmax cur : Nat)
    (fwds : List portForwarder) (h1 : pmin < pmax) (h2 : pmax < 65536)
    (hr : Reachable pmin pmax cur) (hn : fwds.length ≤ pmax - pmin) :
    ((afterSpawn pmin pmax ⟨cur, fwds⟩).fwds.map
      (fun f => f.dest)).Pairwise (· ≠ ·) := by
  have hspec := cycleAll_spec pmin pmax fwds cur
  unfold afterSpawn
  rw [hspec]
  rw [map_dest_zipWith fwds (portSeq pmin pmax cur fwds.length)
    (portSeq_length pmin pmax fwds.length cur).symm]
  exact portSeq_pairwise h1 h2 hr hn

/-- Witness for C9: two forwarders, range [50000, 50003), starting from
the initial cursor state. -/
theorem spawn_ports_pairwise_distinct_witness :
    (50000 : Nat) < 50003 ∧ (50003 : Nat) < 65536 ∧
    ([⟨['A'], 8080, 0⟩, ⟨['B'], 6600, 0⟩] :
        List portForwarder).length ≤ 50003 - 50000 ∧
    ((afterSpawn 50000 50003
        ⟨initCursor 50000, [⟨['A'], 8080, 0⟩, ⟨['B'], 6600, 0⟩]⟩).fwds.map
      (fun f => f.dest)).Pairwise (· ≠ ·) :=
  ⟨by decide, by decide, by decide,
    spawn_ports_pairwise_distinct 50000 50003 (initCursor 50000)
      [⟨['A'], 8080, 0⟩, ⟨['B'], 6600, 0⟩] (by decide) (by decide)
      Reachable.init (by decide)⟩

/-! ## Configuration-time init (main.go, func init)

Go source: after flag.Parse, init fatals when no command argument is
given, sets portCycle = uint16(portMin) - 1, then for each element of
strings.Split(addrEnvs, ",") it takes parts = strings.SplitN(elem, ":", 2),
fatals with a syntax error when len(parts) != 2 or when
strconv.Atoi(parts[1]) fails, and otherwise registers
portMap[uint16(port)] = newPortForwarder(env, uint16(port)).
No validation whatsoever is performed on portMin/portMax.
-/

/-- Go strings.Split with a one-character separator; Split of the empty
string yields one empty element. -/
def goSplit (sep : Char) : List Char → List (List Char)
  | [] => [[]]
  | c :: rest =>
    if c = sep then [] :: goSplit sep rest
    else
      match goSplit sep rest with
      | [] => [[c]]
      | g :: gs => (c :: g) :: gs

/-- Go strings.SplitN with N = 2 and a one-character separator: splits at
the first occurrence only; one element when the separator is absent. -/
def goSplitN2 (sep : Char) : List Char → List (List Char)
  | [] => [[]]
  | c :: rest =>
    if c = sep then [[], rest]
    else
      match goSplitN2 sep rest with
      | [x] => [c :: x]
      | [x, y] => [c :: x, y]
      | _ => []

/-- Value of a list of decimal digit characters. -/
def digitsToNat (l : List Char) : Nat :=
  l.foldl (fun a c => a * 10 + (c.toNat - 48)) 0

/-- Go strconv.Atoi on a 64-bit platform: optional sign, at least one
digit, all digits, result within the int64 range; None models a non-nil
error. -/
def goAtoi (s : List Char) : Option Int :=
  let core : List Char → Option Nat := fun ds =>
    if ds.isEmpty then none
    else if ds.all (fun c => c.isDigit) then some (digitsToNat ds)
    else none
  match s with
  | '+' :: rest =>
    (core rest).bind (fun n =>
      if n ≤ 9223372036854775807 then some (Int.ofNat n) else none)
  | '-' :: rest =>
    (core rest).bind (fun n =>
      if n ≤ 9223372036854775808 then some (-(Int.ofNat n)) else none)
  | _ =>
    (core s).bind (fun n =>
      if n ≤ 9223372036854775807 then some (Int.ofNat n) else none)

/-- Go conversion int -> uint16 (two's-complement truncation, i.e. the
mathematical residue mod 2^16). -/
def intToU16 (v : Int) : Nat := (v % 65536).toNat

/-- The fatal exits init can take (each is a log.Fatalln site). -/
inductive InitError where
  | noCommand
  | missingPort
  | invalidPort
  deriving DecidableEq, Repr

/-- Parsing of one addr-env element: SplitN on the first colon must give
two parts and the second must satisfy Atoi; on success a forwarder with
the truncated source port and zero-valued dest is produced. -/
def parsePair (s : List Char) : Except InitError portForwarder :=
  match goSplitN2 ':' s with
  | [env, p] =>
    match goAtoi p with
    | none => Except.error InitError.invalidPort
    | some v => Except.ok ⟨env, intToU16 v, 0⟩
  | _ => Except.error InitError.missingPort

/-- Insertion into portMap (a Go map keyed by the source port: a later
pair with the same port overwrites the earlier one). -/
def insertFwd (m : List portForwarder) (f : portForwarder) :
    List portForwarder :=
  (m.filter (fun g => g.src ≠ f.src)) ++ [f]

/-- The init loop over the comma-separated addr-env elements, in order,
stopping at the first fatal error. -/
def buildPortMap (acc : List portForwarder) :
    List (List Char) → Except InitError (List portForwarder)
  | [] => Except.ok acc
  | s :: rest =>
    match parsePair s with
    | Except.error e => Except.error e
    | Except.ok f => buildPortMap (insertFwd acc f) rest

/-- The whole of init(): nargs is flag.NArg().  Fatals when no command is
given; otherwise sets the cursor to uint16(portMin)-1 and builds portMap
from the addr-env string.  portMax is accepted without any validation
(it is consulted only later, inside nextPort). -/
def goInit (nargs pmin pmax : Nat) (addrEnvs : List Char) :
    Except InitError (Nat × List portForwarder) :=
  if nargs < 1 then Except.error InitError.noCommand
  else
    match buildPortMap [] (goSplit ',' addrEnvs) with
    | Except.error e => Except.error e
    | Except.ok m => Except.ok (initCursor pmin, m)

/-- True exactly when init would terminate the process via log.Fatalln
(the only mechanism by which configuration problems abort the program). -/
def initAborts (r : Except InitError (Nat × List portForwarder)) : Bool :=
  match r with
  | Except.error _ => true
  | Except.ok _ => false

/-! ## Claim C7 and C10 theorems -/

/-- SplitN at a separator that does not occur yields the single original
element. -/
theorem goSplitN2_no_sep (sep : Char) :
    ∀ (s : List Char), sep ∉ s → goSplitN2 sep s = [s] := by
  intro s
  induction s with
  | nil => intro _; rfl
  | cons c rest ih =>
    intro h
    have hc : ¬ (c = sep) := fun he => h (by rw [he]; exact List.mem_cons_self _ _)
    have hr : sep ∉ rest := fun hm => h (List.mem_cons_of_mem c hm)
    simp [goSplitN2, hc, ih hr]

/-- An addr-env element with no colon fails the NAME:PORT shape. -/
theorem parsePair_missing (s : List Char) (h : ':' ∉ s) :
    parsePair s = Except.error InitError.missingPort := by
  unfold parsePair
  rw [goSplitN2_no_sep ':' s h]

/-- parsePair can only fail with one of the two syntax errors. -/
theorem parsePair_error_kind (s : List Char) (e : InitError)
    (h : parsePair s = Except.error e) :
    e = InitError.missingPort ∨ e = InitError.invalidPort := by
  unfold parsePair at h
  rcases hq : goSplitN2 ':' s with _ | ⟨a, rest⟩
  · rw [hq] at h
    simp only [Except.error.injEq] at h
    exact Or.inl h.symm
  · rcases rest with _ | ⟨b, rest2⟩
    · rw [hq] at h
      simp only [Except.error.injEq] at h
      exact Or.inl h.symm
    · rcases rest2 with _ | ⟨c, rest3⟩
      · rw [hq] at h
        rcases ha : goAtoi b with _ | v
        · simp only [ha, Except.error.injEq] at h
          exact Or.inr h.symm
        · simp [ha] at h
      · rw [hq] at h
        simp only [Except.error.injEq] at h
        exact Or.inl h.symm

/-- If some element of the list has no colon, the init loop fatals with a
syntax error. -/
theorem buildPortMap_error :
    ∀ (l : List (List Char)) (acc : List portForwarder),
      (∃ x ∈ l, ':' ∉ x) →
      ∃ e, buildPortMap acc l = Except.error e ∧
        (e = InitError.missingPort ∨ e = InitError.invalidPort) := by
  intro l
  induction l with
  | nil =>
    intro acc h
    rcases h with ⟨x, hx, _⟩
    simp at hx
  | cons s rest ih =>
    intro acc h
    cases hp : parsePair s with
    | error e =>
      refine ⟨e, ?_, parsePair_error_kind s e hp⟩
      simp [buildPortMap, hp]
    | ok f =>
      rcases h with ⟨x, hx, hcol⟩
      rcases List.mem_cons.mp hx with hxs | hxr
      · exfalso
        rw [hxs] at hcol
        rw [parsePair_missing s hcol] at hp
        cases hp
      · have := ih (insertFwd acc f) ⟨x, hxr, hcol⟩
        simpa [buildPortMap, hp] using this

/-- C10: the program cannot start without at least one valid addr-env
pair.  With at least one command argument, if any element of the
comma-split addr-env string (in particular the single empty element
produced by the default empty value) lacks a colon, init terminates the
program fatally with a syntax error before any core component runs. -/
theorem init_requires_valid_addr_env (nargs pmin pmax : Nat)
    (s : List Char) (h1 : 1 ≤ nargs)
    (h2 : ∃ x ∈ goSplit ',' s, ':' ∉ x) :
    ∃ e, goInit nargs pmin pmax s = Except.error e ∧
      (e = InitError.missingPort ∨ e = InitError.invalidPort) := by
  obtain ⟨e, he, hk⟩ := buildPortMap_error (goSplit ',' s) [] h2
  refine ⟨e, ?_, hk⟩
  unfold goInit
  rw [if_neg (by omega)]
  rw [he]

/-- Witness for C10 at the default empty -addr-env value. -/
theorem init_requires_valid_addr_env_witness :
    (1 : Nat) ≤ 1 ∧ (∃ x ∈ goSplit ',' ([] : List Char), ':' ∉ x) ∧
    (∃ e, goInit 1 50000 60000 [] = Except.error e ∧
      (e = InitError.missingPort ∨ e = InitError.invalidPort)) :=
  ⟨by decide, ⟨[], by decide, by decide⟩,
    init_requires_valid_addr_env 1 50000 60000 [] (by decide)
      ⟨[], by decide, by decide⟩⟩

/-- C7 counterexample: with the empty allocator range port-min =
port-max = 50000, a command argument and one well-formed addr-env pair,
init accepts the configuration: the empty range is not rejected as a
fatal error. -/
theorem init_empty_range_accepted :
    initAborts (goInit 1 50000 50000
      ['A', 'D', 'D', 'R', ':', '8', '0', '8', '0']) = false := by
  decide

/-- C7 (amended): init performs no validation of the allocator range at
configuration time: its outcome is entirely independent of port-max, and
in particular an empty range (port-max = port-min) with otherwise valid
configuration is accepted.  (nextPort itself indeed has no error
conditions: it is total.)  -/
theorem init_no_range_validation :
    (∀ (nargs pmin pmax pmax2 : Nat) (s : List Char),
      goInit nargs pmin pmax s = goInit nargs pmin pmax2 s) ∧
    goInit 1 50000 50000 ['A', 'D', 'D', 'R', ':', '8', '0', '8', '0'] =
      Except.ok (initCursor 50000, [⟨['A', 'D', 'D', 'R'], 8080, 0⟩]) := by
  exact ⟨fun _ _ _ _ _ => rfl, by rfl⟩

/-! ## Forwarder Run() and program startup (claims C5, C6)

Go source: newPortForwarder launches `go p.Run()` and returns the
forwarder; the goroutine's return value has no receiver.  Run() binds a
listener (returning the error on failure), then loops on Accept; for each
accepted connection it dials the current destination, and on success
starts two relay goroutines:
  go func() { io.Copy(sock, remote); sock.Close() }()
  go func() { io.Copy(remote, sock); sock.Close() }()
The only process-terminating calls in the program are the log.Fatalln
sites of init() and of the runner's spawn failure; Run() contains none.
-/

inductive NetErr where
  | bindFailed
  | acceptFailed
  deriving DecidableEq, Repr

inductive AcceptEvent where
  | conn (dialOk : Bool)
  | acceptError
  deriving DecidableEq, Repr

/-- The unbounded accept loop of Run(), over a finite trace of accept
outcomes: an accept error makes Run return it, a connection is handled
and the loop continues; the end of the trace models the loop still
running. -/
def runLoop : List AcceptEvent → Except NetErr Unit
  | [] => Except.ok ()
  | AcceptEvent.acceptError :: _ => Except.error NetErr.acceptFailed
  | AcceptEvent.conn _ :: rest => runLoop rest

/-- Run(): on bind failure the error is returned immediately (to the
goroutine started by newPortForwarder, which discards it); otherwise the
accept loop runs. -/
def runFwd (bindResult : Except NetErr Unit)
    (events : List AcceptEvent) : Except NetErr Unit :=
  match bindResult with
  | Except.error e => Except.error e
  | Except.ok _ => runLoop events

/-- Outcome of program startup: the init result (whose error cases are
exactly the process-fatal log.Fatalln exits) together with the return
values of the forwarders' Run goroutines, which the program never
reads. -/
structure Startup where
  result : Except InitError (Nat × List portForwarder)
  goroutines : List (Except NetErr Unit)

/-- Program startup: init parses the configuration; every registered
forwarder's Run is started concurrently (with no accepted connections
yet), its result discarded.  binds gives the bind outcome of each
forwarder's listener by source port. -/
def programStartup (nargs pmin pmax : Nat) (addrEnvs : List Char)
    (binds : Nat → Except NetErr Unit) : Startup :=
  match goInit nargs pmin pmax addrEnvs with
  | Except.error e => ⟨Except.error e, []⟩
  | Except.ok (cur, fwds) =>
    ⟨Except.ok (cur, fwds), fwds.map (fun f => runFwd (binds f.src) [])⟩

/-- Whether startup terminates the process (true exactly on the
log.Fatalln paths of init). -/
def startupFatal (s : Startup) : Bool := initAborts s.result

/-- C5 counterexample: a configuration with one forwarder whose listener
bind fails: the Run goroutine ends with the bind error, yet startup is
not fatal -- the process continues, refuting the claim that a bind
failure aborts program startup. -/
theorem bind_failure_not_fatal_counterexample :
    startupFatal (programStartup 1 50000 60000
      ['A', 'D', 'D', 'R', ':', '8', '0', '8', '0']
      (fun _ => Except.error NetErr.bindFailed)) = false ∧
    (programStartup 1 50000 60000
      ['A', 'D', 'D', 'R', ':', '8', '0', '8', '0']
      (fun _ => Except.error NetErr.bindFailed)).goroutines =
      [Except.error NetErr.bindFailed] :=
  ⟨rfl, rfl⟩

/-- C5 (amended): when the listener bind fails, Run returns the bind
error immediately; but that value goes to the goroutine spawned by
newPortForwarder, which has no receiver, and the startup outcome of the
program is entirely independent of the bind results, so the failure is
not fatal and startup proceeds without the forwarder serving. -/
theorem bind_failure_returns_discarded (e : NetErr)
    (events : List AcceptEvent) :
    runFwd (Except.error e) events = Except.error e ∧
    (∀ (nargs pmin pmax : Nat) (s : List Char)
        (binds binds2 : Nat → Except NetErr Unit),
      (programStartup nargs pmin pmax s binds).result =
        (programStartup nargs pmin pmax s binds2).result) := by
  refine ⟨rfl, ?_⟩
  intro nargs pmin pmax s binds binds2
  unfold programStartup
  cases goInit nargs pmin pmax s with
  | error e2 => rfl
  | ok v => cases v; rfl

/-! ## The relay goroutines of one connection pair (claim C6) -/

/-- One relayed connection pair: the inbound client socket accepted on
the public port, and the outbound connection dialed to the child's
current destination. -/
structure ConnPair where
  sock : Nat
  remote : Nat
  deriving DecidableEq, Repr

inductive RelayAction where
  | copy (dst src : Nat)
  | close (c : Nat)
  deriving DecidableEq, Repr

/-- Read thread: io.Copy(sock, remote) until EOF or error, then
sock.Close(). -/
def readThread (p : ConnPair) : List RelayAction :=
  [RelayAction.copy p.sock p.remote, RelayAction.close p.sock]

/-- Write thread: io.Copy(remote, sock) until EOF or error, then
sock.Close(). -/
def writeThread (p : ConnPair) : List RelayAction :=
  [RelayAction.copy p.remote p.sock, RelayAction.close p.sock]

/-- All connections closed by the two relay goroutines of one pair after
their copies stop. -/
def relayCloses (p : ConnPair) : List Nat :=
  (readThread p ++ writeThread p).filterMap (fun a =>
    match a with
    | RelayAction.close c => some c
    | RelayAction.copy _ _ => none)

/-- C6 counterexample: for the connection pair with inbound socket 0 and
outbound connection 1, it is not the case that both ends are closed when
the relay directions stop. -/
theorem relay_close_counterexample :
    ¬ ((0 : Nat) ∈ relayCloses ⟨0, 1⟩ ∧
       (1 : Nat) ∈ relayCloses ⟨0, 1⟩) := by
  decide

/-- C6 (amended): when either relay direction stops at end-of-stream or
an I/O error, its cleanup closes the inbound client socket (both
directions close that same end), and the outbound connection to the
child destination is never closed by the relay. -/
theorem relay_closes_inbound_only (p : ConnPair)
    (h : p.remote ≠ p.sock) :
    RelayAction.close p.sock ∈ readThread p ∧
    RelayAction.close p.sock ∈ writeThread p ∧
    p.sock ∈ relayCloses p ∧ p.remote ∉ relayCloses p := by
  refine ⟨by simp [readThread], by simp [writeThread], ?_, ?_⟩
  · simp [relayCloses, readThread, writeThread]
  · simp [relayCloses, readThread, writeThread, h]

/-- Witness for C6 (amended) at the pair (0, 1). -/
theorem relay_closes_inbound_only_witness :
    (1 : Nat) ≠ 0 ∧
    (RelayAction.close 0 ∈ readThread ⟨0, 1⟩ ∧
     RelayAction.close 0 ∈ writeThread ⟨0, 1⟩ ∧
     (0 : Nat) ∈ relayCloses ⟨0, 1⟩ ∧
     (1 : Nat) ∉ relayCloses ⟨0, 1⟩) :=
  ⟨by decide, relay_closes_inbound_only ⟨0, 1⟩ (by decide)⟩

/-! ## Debouncer (main.go, func debouncer)

Go source:
  timer := time.NewTimer(delay)
  for {
    <-input
  BounceLoop:
    for {
      timer.Reset(delay)
      select {
      case <-input:
      case <-timer.C:
        output <- struct{}{}
        break BounceLoop
      }
    }
  DrainLoop: for { select { case <-input: default: break DrainLoop } }
  }

Embedded as a timed trace semantics.  Time is Nat; the input events are
given as a weakly increasing list of arrival times; processing is
instantaneous; the output never blocks.  time.Timer is modelled with the
semantics of the Go standard library this GOPATH-era program builds
against (the project has no go.mod, so the pre-Go-1.23 asynchronous
timer-channel behaviour applies): the timer holds an optional pending
deadline, and a flag recording that a fired value is sitting unconsumed
in timer.C; Timer.Reset schedules a new deadline but does NOT drain the
channel, so a fire that happened before the Reset stays receivable.
When both select branches are ready at the same instant Go chooses
pseudo-randomly; the embedding resolves that tie in favour of the input
branch (the resolution generous to the coalescing claim; the failing
input below involves no tie). -/

structure GoTimer where
  deadline : Option Nat
  fired : Bool
  deriving DecidableEq, Repr

/-- Materialise, at time t, a fire whose deadline has passed: the value
enters timer.C and no deadline remains pending. -/
def tickTimer (t : Nat) (tm : GoTimer) : GoTimer :=
  match tm.deadline with
  | some d => if d ≤ t then ⟨none, true⟩ else tm
  | none => tm

/-- Timer.Reset(delay) at time t: a fire that already happened stays in
the channel; the deadline becomes t + delay. -/
def resetTimer (delay t : Nat) (tm : GoTimer) : GoTimer :=
  ⟨some (t + delay), (tickTimer t tm).fired⟩

/-- Receiving from timer.C: consumes the value in the channel; a pending
deadline set by a Reset after the consumed (stale) fire keeps running. -/
def consumeTimer (tm : GoTimer) : GoTimer :=
  if tm.fired then ⟨tm.deadline, false⟩ else ⟨none, false⟩

/-- BounceLoop: at current time now with timer state tm and remaining
input arrivals, repeatedly Reset the timer and select between the next
input event and the timer channel; returns the time at which the output
pulse is emitted, the timer state after the emitting receive, and the
input events not consumed by the loop. -/
def bounceLoop (delay : Nat) : List Nat → Nat → GoTimer →
    Nat × GoTimer × List Nat
  | [], now, tm =>
    let tm2 := resetTimer delay now tm
    let tAvail := if tm2.fired then now else now + delay
    (tAvail, consumeTimer (tickTimer tAvail tm2), [])
  | e :: rest, now, tm =>
    let tm2 := resetTimer delay now tm
    let tAvail := if tm2.fired then now else now + delay
    let inAvail := max now e
    if inAvail ≤ tAvail then bounceLoop delay rest inAvail tm2
    else (tAvail, consumeTimer (tickTimer tAvail tm2), e :: rest)

/-- The outer debouncer loop: block on input, run BounceLoop, emit the
pulse, drain every input event queued by the emission instant, and
repeat.  fuel bounds the number of iterations; every iteration consumes
at least one input event, so the number of events suffices. -/
def debounceLoop (delay : Nat) : Nat → Nat → GoTimer → List Nat →
    List Nat
  | 0, _, _, _ => []
  | _ + 1, _, _, [] => []
  | fuel + 1, now, tm, e :: rest =>
    let t1 := max now e
    let r := bounceLoop delay rest t1 tm
    let rem := r.2.2.dropWhile (fun x => x ≤ r.1)
    r.1 :: debounceLoop delay fuel r.1 r.2.1 rem

/-- debouncer(delay, input, output) started at time 0: time.NewTimer
arms the initial timer with deadline delay and an empty channel.
Returns the emission times of the output pulses for the given input
arrival times. -/
def debouncer (delay : Nat) (events : List Nat) : List Nat :=
  debounceLoop delay events.length 0 ⟨some delay, false⟩ events

/-- C2: burst coalescing fails on the code.  With delay 2, a burst of two
input events at times 3 and 4 (spaced 1 < delay apart, the first
arriving after the initial timer's fire at time 2 is already sitting
unconsumed in timer.C), the debouncer emits TWO pulses, the first at
time 3, which is sooner than delay after the last event of the burst:
Timer.Reset is invoked without stopping and draining the timer, so the
select receives the stale fire immediately.  The claim (at most one
pulse, no sooner than last event + delay = 6) is violated. -/
theorem debouncer_stale_timer_fire :
    debouncer 2 [3, 4] = [3, 6] ∧
    ¬ ((debouncer 2 [3, 4]).length ≤ 1) ∧
    (∃ t ∈ debouncer 2 [3, 4], t < 4 + 2) := by
  refine ⟨by decide, by decide, ⟨3, by decide, by decide⟩⟩

/-- Sanity check of the debouncer model in the clean regime: a burst of
two events at times 1 and 2 (starting before the initial timer fire at
time 2) yields exactly one pulse, delay after the last event. -/
theorem debouncer_clean_burst : debouncer 2 [1, 2] = [4] := by decide

/-- Sanity check: two bursts separated by more than delay yield exactly
two pulses. -/
theorem debouncer_two_bursts : debouncer 2 [1, 2, 10] = [4, 12] := by
  decide
